import Mathlib

/-!
Verification of the message batching and intake pipeline of the
operations-center repository.

The Python sources are shallowly embedded as executable Lean definitions:

* `app/queue/message_queue.py` — the per-conversation batching queue —
  is modelled as a small-step event system (`SysState`, `QEvent`,
  `runTrace`).  Each coroutine of the source runs atomically up to its
  first `await` of the processor callback, which matches the asyncio
  single-thread execution model: `enqueue_message` and the synchronous
  part of `_process_queue` become one step, and the completion of the
  awaited `processor_callback` (the `finally:` cleanup) becomes a
  separate step.  Wall-clock time is modelled in milliseconds so that
  the 2.0-second debounce window is the exact natural number 2000.
* `apps/backend/api/schemas/classification.py` — the Pydantic
  classification schema and its `validate_keys` check — becomes plain
  inductive types and an `Except`-valued validator.
* `app/workflows/batched_classification.py`, `app/workflows/entity_creation.py`
  and `app/workflows/slack_intake.py` become pure functions;
  database and LLM calls are parameters (oracles) capturing the outcome
  of the external call, and an explicit call log records which external
  operations a pipeline run performed.
-/

namespace OpsCenter

/-! ## Classification schema (`apps/backend/api/schemas/classification.py`) -/

/-- `MessageType(str, Enum)` from `classification.py`. -/
inductive MessageType where
  | GROUP
  | STRAY
  | INFO_REQUEST
  | IGNORE
deriving DecidableEq, Repr

/-- `ListingType(str, Enum)` from `classification.py`. -/
inductive ListingType where
  | SALE
  | LEASE
deriving DecidableEq, Repr

/-- `GroupKey(str, Enum)` from `classification.py`: the 8 listing-declaration types. -/
inductive GroupKey where
  | SALE_LISTING
  | LEASE_LISTING
  | SALE_LEASE_LISTING
  | SOLD_SALE_LEASE_LISTING
  | RELIST_LISTING
  | RELIST_LISTING_DEAL_SALE_OR_LEASE
  | BUY_OR_LEASED
  | MARKETING_AGENDA_TEMPLATE
deriving DecidableEq, Repr

/-- `TaskKey(str, Enum)` from `classification.py`: the 16 task types. -/
inductive TaskKey where
  | SALE_ACTIVE_TASKS
  | SALE_SOLD_TASKS
  | SALE_CLOSING_TASKS
  | LEASE_ACTIVE_TASKS
  | LEASE_LEASED_TASKS
  | LEASE_CLOSING_TASKS
  | LEASE_ACTIVE_TASKS_ARLYN
  | RELIST_LISTING_DEAL_SALE
  | RELIST_LISTING_DEAL_LEASE
  | BUYER_DEAL
  | BUYER_DEAL_CLOSING_TASKS
  | LEASE_TENANT_DEAL
  | LEASE_TENANT_DEAL_CLOSING_TASKS
  | PRECON_DEAL
  | MUTUAL_RELEASE_STEPS
  | OPS_MISC_TASK
deriving DecidableEq, Repr

/-- The `.value` string of a `TaskKey` member (the `str` payload of the Python enum). -/
def TaskKey.value : TaskKey → String
  | .SALE_ACTIVE_TASKS => "SALE_ACTIVE_TASKS"
  | .SALE_SOLD_TASKS => "SALE_SOLD_TASKS"
  | .SALE_CLOSING_TASKS => "SALE_CLOSING_TASKS"
  | .LEASE_ACTIVE_TASKS => "LEASE_ACTIVE_TASKS"
  | .LEASE_LEASED_TASKS => "LEASE_LEASED_TASKS"
  | .LEASE_CLOSING_TASKS => "LEASE_CLOSING_TASKS"
  | .LEASE_ACTIVE_TASKS_ARLYN => "LEASE_ACTIVE_TASKS_ARLYN"
  | .RELIST_LISTING_DEAL_SALE => "RELIST_LISTING_DEAL_SALE"
  | .RELIST_LISTING_DEAL_LEASE => "RELIST_LISTING_DEAL_LEASE"
  | .BUYER_DEAL => "BUYER_DEAL"
  | .BUYER_DEAL_CLOSING_TASKS => "BUYER_DEAL_CLOSING_TASKS"
  | .LEASE_TENANT_DEAL => "LEASE_TENANT_DEAL"
  | .LEASE_TENANT_DEAL_CLOSING_TASKS => "LEASE_TENANT_DEAL_CLOSING_TASKS"
  | .PRECON_DEAL => "PRECON_DEAL"
  | .MUTUAL_RELEASE_STEPS => "MUTUAL_RELEASE_STEPS"
  | .OPS_MISC_TASK => "OPS_MISC_TASK"

/-- The `Listing` Pydantic model: optional type and address. -/
structure ListingInfo where
  type : Option ListingType := none
  address : Option String := none
deriving DecidableEq, Repr

/-- The `ClassificationV1` Pydantic model.  The float `confidence` field is
modelled as a rational number; `schema_version` is the literal 1 and omitted. -/
structure ClassificationV1 where
  message_type : MessageType
  task_key : Option TaskKey := none
  group_key : Option GroupKey := none
  listing : ListingInfo := {}
  assignee_hint : Option String := none
  due_date : Option String := none
  task_title : Option String := none
  confidence : Rat := 1
  explanations : Option (List String) := none
deriving DecidableEq, Repr

/-- `ClassificationV1.validate_keys`: raises `ValueError` (modelled as
`Except.error`) unless INFO_REQUEST/IGNORE carry no key and GROUP/STRAY carry
exactly one of `group_key`/`task_key`. -/
def validate_keys (c : ClassificationV1) : Except String Unit :=
  let group_present := c.group_key.isSome
  let task_present := c.task_key.isSome
  if c.message_type = .INFO_REQUEST ∨ c.message_type = .IGNORE then
    if group_present || task_present then
      Except.error "INFO_REQUEST/IGNORE should have no keys"
    else
      Except.ok ()
  else
    if group_present = task_present then
      Except.error "Exactly one of group_key or task_key must be set"
    else
      Except.ok ()

/-- `MessageClassifier.classify` after the LLM call: the structured output is
validated by `validate_keys`; a `ValueError` propagates, otherwise the
classification is returned unchanged (never coerced).  The LLM interaction
itself is external, so the validated-or-rejected output is a parameter. -/
def classify_validate (llmOutput : ClassificationV1) : Except String ClassificationV1 :=
  match validate_keys llmOutput with
  | Except.error e => Except.error e
  | Except.ok () => Except.ok llmOutput

/-- The key-exclusivity invariant in the words of the specification:
for GROUP/STRAY exactly one of the two keys is present, for
INFO_REQUEST/IGNORE neither is. -/
def keyExclusivityInvariant (c : ClassificationV1) : Prop :=
  ((c.message_type = .GROUP ∨ c.message_type = .STRAY) →
      (c.group_key.isSome = true ↔ c.task_key.isSome = false)) ∧
  ((c.message_type = .INFO_REQUEST ∨ c.message_type = .IGNORE) →
      (c.group_key = none ∧ c.task_key = none))

/-! ## Batched classification (`app/workflows/batched_classification.py`) -/

/-- `QueuedMessage` from `app/queue/message_queue.py`.  `received_at` is a
timestamp in milliseconds; the raw `event` dict is represented by the fields
extracted from it. -/
structure QueuedMessage where
  text : String
  received_at : Nat
  slack_ts : String
  thread_ts : Option String := none
deriving DecidableEq, Repr

/-- The fixed preamble prepended to a multi-message batch. -/
def BATCH_PREAMBLE : String :=
  "User sent the following messages in quick succession. " ++
  "Classify these as a single unit (they are related):\n\n"

/-- The `for i, msg in enumerate(messages, 1)` loop body of
`batch_messages_for_classification`: renders each message as
`Message i [timestamp]: text` followed by a newline, numbering from `i`. -/
def renderNumbered (i : Nat) : List QueuedMessage → String
  | [] => ""
  | m :: rest =>
      "Message " ++ toString i ++ " [" ++ m.slack_ts ++ "]: " ++ m.text ++ "\n" ++
      renderNumbered (i + 1) rest

/-- `batch_messages_for_classification`: empty list gives `""`; a singleton
gives the message text verbatim; otherwise the preamble plus the numbered
lines. -/
def batch_messages_for_classification (messages : List QueuedMessage) : String :=
  match messages with
  | [] => ""
  | [m] => m.text
  | ms => BATCH_PREAMBLE ++ renderNumbered 1 ms

/-- `get_primary_thread_ts`: the `thread_ts` of the first message that has one. -/
def get_primary_thread_ts : List QueuedMessage → Option String
  | [] => none
  | m :: rest =>
      match m.thread_ts with
      | some t => some t
      | none => get_primary_thread_ts rest

/-- One line of the composite text as the specification words it:
`Message i [timestamp]: text` where `i` counts from 1 in arrival order. -/
def specMessageLine (idx : Nat) (m : QueuedMessage) : String :=
  "Message " ++ toString (idx + 1) ++ " [" ++ m.slack_ts ++ "]: " ++ m.text ++ "\n"

/-- The composite body as the specification words it: one line per message,
numbered from 1 in arrival order. -/
def specCompositeBody (messages : List QueuedMessage) : String :=
  String.join (messages.enum.map (fun p => specMessageLine p.1 p.2))

theorem string_join_cons (a : String) (l : List String) :
    String.join (a :: l) = a ++ String.join l := by
  apply String.ext
  simp [String.data_join]

theorem renderNumbered_eq_specBody (n : Nat) (ms : List QueuedMessage) :
    renderNumbered (n + 1) ms =
      String.join ((List.enumFrom n ms).map (fun p => specMessageLine p.1 p.2)) := by
  induction ms generalizing n with
  | nil => rfl
  | cons m rest ih =>
      simp only [List.enumFrom_cons, List.map_cons]
      rw [string_join_cons, ← ih (n + 1)]
      simp [renderNumbered, specMessageLine, String.append_assoc]

/-- **C7.** For every non-empty list of queued messages,
`batch_messages_for_classification` returns the single message's text verbatim
when the list has exactly one element; when it has more than one element, it
returns the fixed preamble followed by one line per message of the form
`Message i [timestamp]: text`, numbered from 1 in arrival order. -/
theorem batching_text_composition (messages : List QueuedMessage)
    (hne : messages ≠ []) :
    (∀ _h1 : messages.length = 1,
        batch_messages_for_classification messages = (messages.head hne).text) ∧
    (1 < messages.length →
        batch_messages_for_classification messages =
          BATCH_PREAMBLE ++ specCompositeBody messages) := by
  match messages with
  | [m] =>
      refine ⟨fun _ => rfl, fun h => absurd h (by simp)⟩
  | m :: m' :: rest =>
      refine ⟨fun h1 => absurd h1 (by simp), fun _ => ?_⟩
      show BATCH_PREAMBLE ++ renderNumbered 1 (m :: m' :: rest) = _
      have := renderNumbered_eq_specBody 0 (m :: m' :: rest)
      simp only [Nat.zero_add] at this
      rw [this]
      simp [specCompositeBody, List.enum]

/-- **C6.** A classification passes `validate_keys` (and hence survives
`classify` unchanged) exactly when it satisfies the key-exclusivity invariant:
GROUP/STRAY carry exactly one of `group_key`/`task_key`, INFO_REQUEST/IGNORE
carry neither; every violating combination makes `classify` fail with a
validation error instead of being silently coerced. -/
theorem classification_key_exclusivity (c : ClassificationV1) :
    (validate_keys c = Except.ok () ↔ keyExclusivityInvariant c) ∧
    (classify_validate c = Except.ok c ↔ keyExclusivityInvariant c) ∧
    (¬ keyExclusivityInvariant c → ∀ c', classify_validate c ≠ Except.ok c') := by
  obtain ⟨mt, tk, gk, li, ah, dd, tt, cf, ex⟩ := c
  cases mt <;> cases tk <;> cases gk <;>
    simp [validate_keys, keyExclusivityInvariant, classify_validate]

/-! ## Entity creation (`app/workflows/entity_creation.py`) -/

/-- One row of the `realtors` table, with the columns `resolve_realtor` reads. -/
structure Realtor where
  realtor_id : String
  name : String
  email : String
  phone : String
deriving DecidableEq, Repr

/-- `needle` is an initial run of `hay` (character lists). -/
def listLeads : List Char → List Char → Bool
  | [], _ => true
  | _ :: _, [] => false
  | a :: as, b :: bs => a = b && listLeads as bs

/-- `needle` occurs contiguously somewhere inside `hay` (character lists). -/
def listWithin (needle : List Char) : List Char → Bool
  | [] => listLeads needle []
  | h :: t => listLeads needle (h :: t) || listWithin needle t

/-- ASCII lower-casing of one character. -/
def lowerChar (ch : Char) : Char :=
  if 'A' ≤ ch ∧ ch ≤ 'Z' then Char.ofNat (ch.toNat + 32) else ch

/-- PostgREST `ilike("col", "%pat%")` as used by `resolve_realtor`:
case-insensitive containment of `pat` in the stored column value.  The
characters of `pat` are matched literally (the digit patterns the phone
rule builds contain no SQL wildcards). -/
def ilikeContains (stored pat : String) : Bool :=
  listWithin (pat.data.map lowerChar) (stored.data.map lowerChar)

/-- `''.join(filter(str.isdigit, s))` restricted to ASCII digits. -/
def digitsOf (s : String) : List Char := s.data.filter Char.isDigit

/-- `resolve_realtor` from `entity_creation.py`: the directory stands for the
`realtors` table in row order, so `find?` is the first row a Supabase query
returns.  Rules are tried in the source's order: email on `@`, `ilike`
containment of the hint's last ten digits in the stored phone, exact name,
case-insensitive `ilike` name containment. -/
def resolve_realtor (directory : List Realtor) (assignee_hint : Option String) :
    Option String :=
  match assignee_hint with
  | none => none
  | some hint =>
    if hint = "" then none
    else
      let byEmail : Option String :=
        if hint.data.contains '@' then
          (directory.find? (fun r => r.email = hint)).map (fun r => r.realtor_id)
        else none
      match byEmail with
      | some rid => some rid
      | none =>
        let byPhone : Option String :=
          if hint.data.any Char.isDigit then
            let phone_digits := digitsOf hint
            if phone_digits.length ≥ 10 then
              let lastTen : List Char := phone_digits.drop (phone_digits.length - 10)
              (directory.find? (fun r => ilikeContains r.phone (String.mk lastTen))).map
                (fun r => r.realtor_id)
            else none
          else none
        match byPhone with
        | some rid => some rid
        | none =>
          match (directory.find? (fun r => r.name = hint)).map (fun r => r.realtor_id) with
          | some rid => some rid
          | none =>
            (directory.find? (fun r => ilikeContains r.name hint)).map
              (fun r => r.realtor_id)

/-- Rule 2 as claim C9 words it: the hint's trailing ten digits matched as a
*suffix* of the stored phone number's digits (first hit wins).  This is the
claim-side definition used to compare against the code's `ilike` containment. -/
def claimedPhoneSuffixRule (directory : List Realtor) (hint : String) : Option String :=
  if hint.data.any Char.isDigit then
    let phone_digits := digitsOf hint
    if phone_digits.length ≥ 10 then
      let lastTen : List Char := phone_digits.drop (phone_digits.length - 10)
      (directory.find? (fun r =>
          (digitsOf r.phone).drop ((digitsOf r.phone).length - 10) = lastTen)).map
        (fun r => r.realtor_id)
    else none
  else none

/-- `resolveAssignee` as claim C9 states it, with rule 2 the suffix match. -/
def resolveAssigneeClaimed (directory : List Realtor) (assignee_hint : Option String) :
    Option String :=
  match assignee_hint with
  | none => none
  | some hint =>
    if hint = "" then none
    else
      let r1 : Option String :=
        if hint.data.contains '@' then
          (directory.find? (fun r => r.email = hint)).map (fun r => r.realtor_id)
        else none
      match r1 with
      | some rid => some rid
      | none =>
        match claimedPhoneSuffixRule directory hint with
        | some rid => some rid
        | none =>
          match (directory.find? (fun r => r.name = hint)).map (fun r => r.realtor_id) with
          | some rid => some rid
          | none =>
            (directory.find? (fun r => ilikeContains r.name hint)).map
              (fun r => r.realtor_id)

/-- Rule 2 as the code actually implements it: the hint's trailing ten digits
matched by case-insensitive containment (`ilike '%…%'`) in the raw stored
phone string. -/
def phoneInfixRule (directory : List Realtor) (hint : String) : Option String :=
  if hint.data.any Char.isDigit then
    let phone_digits := digitsOf hint
    if phone_digits.length ≥ 10 then
      let lastTen : List Char := phone_digits.drop (phone_digits.length - 10)
      (directory.find? (fun r => ilikeContains r.phone (String.mk lastTen))).map
        (fun r => r.realtor_id)
    else none
  else none

/-- `resolveAssignee` as amended: identical to claim C9 except that rule 2 is
the containment match the code performs. -/
def resolveAssigneeAmended (directory : List Realtor) (assignee_hint : Option String) :
    Option String :=
  match assignee_hint with
  | none => none
  | some hint =>
    if hint = "" then none
    else
      let r1 : Option String :=
        if hint.data.contains '@' then
          (directory.find? (fun r => r.email = hint)).map (fun r => r.realtor_id)
        else none
      match r1 with
      | some rid => some rid
      | none =>
        match phoneInfixRule directory hint with
        | some rid => some rid
        | none =>
          match (directory.find? (fun r => r.name = hint)).map (fun r => r.realtor_id) with
          | some rid => some rid
          | none =>
            (directory.find? (fun r => ilikeContains r.name hint)).map
              (fun r => r.realtor_id)

/-- A directory row whose stored phone has twelve digits that *begin* with the
digits `5551234567`: containment matches, suffix matching does not. -/
def cexRealtorRow : Realtor :=
  { realtor_id := "r-77", name := "Zed", email := "zed@example.com",
    phone := "555123456789" }

/-- **C9 counterexample.** On the directory `[cexRealtorRow]` and the hint
`"5551234567"`, the code resolves the realtor through the phone rule by
containment, while the claim's suffix-match rule (and its remaining rules)
find nothing — so `resolve_realtor` does not implement the claimed
suffix-matching priority chain. -/
theorem resolve_realtor_suffix_counterexample :
    resolve_realtor [cexRealtorRow] (some "5551234567") = some "r-77" ∧
    resolveAssigneeClaimed [cexRealtorRow] (some "5551234567") = none := by
  constructor <;> decide

/-- A successful rule lookup returns the id of a directory row. -/
theorem find_rule_mem (directory : List Realtor) (p : Realtor → Bool) (rid : String)
    (h : (directory.find? p).map (fun r => r.realtor_id) = some rid) :
    ∃ r, r ∈ directory ∧ r.realtor_id = rid := by
  rcases Option.map_eq_some'.mp h with ⟨r, hr, hrid⟩
  exact ⟨r, List.mem_of_find?_eq_some hr, hrid⟩

/-- **C9 (amended).** `resolve_realtor` tries, in this fixed order with the
first hit winning: exact email when the hint contains `@`; the hint's last
ten digits *contained* (case-insensitive `ilike`) in the stored phone when
the hint has at least ten digits; exact name; case-insensitive substring
name.  No hit, an absent hint, or an empty hint give `none`, and a returned
id is always the id of a directory row — never fabricated. -/
theorem resolve_realtor_priority_order (directory : List Realtor)
    (assignee_hint : Option String) :
    resolve_realtor directory assignee_hint =
        resolveAssigneeAmended directory assignee_hint ∧
    resolve_realtor directory none = none ∧
    resolve_realtor directory (some "") = none ∧
    (∀ rid, resolve_realtor directory assignee_hint = some rid →
        ∃ r, r ∈ directory ∧ r.realtor_id = rid) := by
  refine ⟨?_, rfl, rfl, ?_⟩
  · cases assignee_hint with
    | none => rfl
    | some hint =>
        simp only [resolve_realtor, resolveAssigneeAmended, phoneInfixRule]
  · intro rid h
    cases assignee_hint with
    | none => exact absurd h (by simp [resolve_realtor])
    | some hint =>
        simp only [resolve_realtor] at h
        by_cases h0 : hint = ""
        · rw [if_pos h0] at h
          exact absurd h (by simp)
        · rw [if_neg h0] at h
          split at h
          next rid1 heq =>
              obtain rfl : rid1 = rid := Option.some.inj h
              by_cases hat : hint.data.contains '@'
              · rw [if_pos hat] at heq
                exact find_rule_mem directory _ _ heq
              · rw [if_neg hat] at heq
                exact absurd heq (by simp)
          next heq =>
              split at h
              next rid1 heq2 =>
                  obtain rfl : rid1 = rid := Option.some.inj h
                  by_cases hdig : hint.data.any Char.isDigit
                  · rw [if_pos hdig] at heq2
                    by_cases hlen : (digitsOf hint).length ≥ 10
                    · rw [if_pos hlen] at heq2
                      exact find_rule_mem directory _ _ heq2
                    · rw [if_neg hlen] at heq2
                      exact absurd heq2 (by simp)
                  · rw [if_neg hdig] at heq2
                    exact absurd heq2 (by simp)
              next heq2 =>
                  split at h
                  next rid1 heq3 =>
                      obtain rfl : rid1 = rid := Option.some.inj h
                      exact find_rule_mem directory _ _ heq3
                  next heq3 =>
                      exact find_rule_mem directory _ _ h

/-- **C10.** The agent-task record built by `create_agent_task_record`
(its `task_data` dict).  `uuid` and `now` stand for `uuid4()` and
`datetime.utcnow().isoformat()`. -/
structure TaskData where
  task_id : String
  realtor_id : Option String
  task_key : String
  name : String
  description : String
  status : String
  priority : Nat
  due_date : Option String
  notes : List String
  created_at : String
deriving DecidableEq, Repr

/-- The `task_data` dict constructed by `create_agent_task_record`. -/
def build_agent_task_data (classification : ClassificationV1)
    (realtor_id : Option String) (message_text : String)
    (is_info_request : Bool) (uuid now : String) : TaskData :=
  { task_id := uuid
    realtor_id := realtor_id
    task_key :=
      match classification.task_key with
      | some k => k.value
      | none => "GENERAL_ADMIN"
    name :=
      match classification.task_title with
      | some t => if t = "" then "Untitled Task" else t
      | none => "Untitled Task"
    description := message_text
    status := if is_info_request then "NEEDS_INFO" else "OPEN"
    priority := 5
    due_date := classification.due_date
    notes :=
      match classification.explanations with
      | some l => l
      | none => []
    created_at := now }

/-- The dispatch of `create_entities_from_classification` on
`classification.message_type`. -/
inductive EntityAction where
  | markSkipped
  | createListing
  | createAgentTask (is_info_request : Bool)
deriving DecidableEq, Repr

/-- The `if`/`elif` routing of `create_entities_from_classification`:
IGNORE skips, GROUP creates a listing, STRAY/INFO_REQUEST create an agent
task with `is_info_request = (message_type == INFO_REQUEST)`. -/
def entity_dispatch (mt : MessageType) : EntityAction :=
  if mt = .IGNORE then .markSkipped
  else if mt = .GROUP then .createListing
  else .createAgentTask (mt = .INFO_REQUEST)

/-- **C10.** Agent-task records substitute defaults for absent optional
fields: an absent `task_key` is stored as the literal `"GENERAL_ADMIN"`,
which is not the `.value` of any `TaskKey` member; an absent `task_title`
becomes the name `"Untitled Task"`; `priority` is always 5; and a valid
INFO_REQUEST classification is routed to task creation with
`is_info_request = true`, producing `task_key = "GENERAL_ADMIN"` and
`status = "NEEDS_INFO"`. -/
theorem agent_task_defaults (c : ClassificationV1) (rid : Option String)
    (text uuid now : String) (b : Bool) :
    (build_agent_task_data c rid text b uuid now).priority = 5 ∧
    (∀ k : TaskKey, k.value ≠ "GENERAL_ADMIN") ∧
    (c.task_key = none →
        (build_agent_task_data c rid text b uuid now).task_key = "GENERAL_ADMIN") ∧
    (c.task_title = none →
        (build_agent_task_data c rid text b uuid now).name = "Untitled Task") ∧
    (c.message_type = .INFO_REQUEST → validate_keys c = Except.ok () →
        entity_dispatch c.message_type = .createAgentTask true ∧
        (build_agent_task_data c rid text true uuid now).task_key = "GENERAL_ADMIN" ∧
        (build_agent_task_data c rid text true uuid now).status = "NEEDS_INFO") := by
  refine ⟨rfl, ?_, ?_, ?_, ?_⟩
  · intro k; cases k <;> decide
  · intro h; simp [build_agent_task_data, h]
  · intro h; simp [build_agent_task_data, h]
  · intro hmt hok
    have htk : c.task_key = none := by
      cases htk : c.task_key with
      | none => rfl
      | some k => simp [validate_keys, hmt, htk] at hok
    refine ⟨by simp [entity_dispatch, hmt], by simp [build_agent_task_data, htk], rfl⟩

/-! ## Batch queue (`app/queue/message_queue.py`)

The queue module is embedded as a small-step event system.  An `arrive`
event is one `enqueue_message` call run to its return or to the first
`await` of the processor callback (the synchronous prefix of
`_process_queue`); a `fire` event is a debounce timer task resuming after
its sleep and running the same synchronous prefix; a `complete` event is
an awaited processor callback returning (or raising), i.e. the `finally:`
block of `_process_queue`.  Timer tasks and in-flight callbacks live in
explicit lists; `flushLog` records every invocation of the processor
callback; `graveyard` is ghost state recording batches that left the
registry, so that the registry invariants can be stated. -/

/-- `BATCH_TIMEOUT_SECONDS = 2.0`, in milliseconds. -/
def BATCH_TIMEOUT_MS : Nat := 2000

/-- `MAX_BATCH_SIZE = 10`. -/
def MAX_BATCH_SIZE : Nat := 10

/-- `_make_queue_key`: the composite key `f"{user_id}:{channel_id}"`. -/
def _make_queue_key (user_id channel_id : String) : String :=
  user_id ++ ":" ++ channel_id

/-- The fields of the Slack `event` dict that `enqueue_message` reads. -/
structure SlackEvt where
  text : String := ""
  ts : String := ""
  thread_ts : Option String := none
deriving DecidableEq, Repr

/-- The `MessageQueue` dataclass.  `bid` is a ghost identity (creation
order) so that distinct batch objects for the same key can be told apart;
`timer` is the index of the batch's current timer task. -/
structure MessageQueue where
  bid : Nat
  queue_key : String
  messages : List QueuedMessage
  timer : Option Nat
  status : String
  user_id : String
  channel_id : String
deriving DecidableEq, Repr

/-- One `asyncio.create_task(_batch_timer …)` task. -/
structure TimerTask where
  tkey : String
  deadline : Nat
  cancelled : Bool
  fired : Bool
deriving DecidableEq, Repr

/-- An `await processor_callback(…)` that has been entered but whose
`finally:` cleanup has not yet run. -/
structure PendingFlush where
  pbid : Nat
  pkey : String
  pmessages : List QueuedMessage
  puser : String
  pchannel : String
deriving DecidableEq, Repr

/-- One invocation of the processor callback (`onFlush`). -/
structure FlushRec where
  fbid : Nat
  fmessages : List QueuedMessage
  fuser : String
  fchannel : String
  ftime : Nat
deriving DecidableEq, Repr

/-- The whole state of the queue module: `registry` is the module-level
`_active_queues` dict; `now` is wall-clock time in ms. -/
structure SysState where
  now : Nat
  nextBid : Nat
  registry : String → Option MessageQueue
  timers : List TimerTask
  pending : List PendingFlush
  flushLog : List FlushRec
  graveyard : List MessageQueue

/-- `queue.timer.cancel()` guarded by `not queue.timer.done()`: marks timer
`i` cancelled unless it already fired. -/
def cancelTimerIdx (ts : List TimerTask) (i : Nat) : List TimerTask :=
  match ts.get? i with
  | none => ts
  | some t => if t.fired then ts else ts.set i { t with cancelled := true }

/-- The synchronous prefix of `_process_queue`: if the key is absent, log a
warning and return; otherwise mark the queue `processing`, copy out its
messages, and invoke the processor callback (recorded in `pending` and
`flushLog`). -/
def processQueueBegin (s : SysState) (queue_key : String) : SysState :=
  match s.registry queue_key with
  | none => s
  | some q =>
      let q' := { q with status := "processing" }
      { s with
        registry := fun k => if k = queue_key then some q' else s.registry k,
        pending := s.pending ++ [⟨q.bid, queue_key, q.messages, q.user_id, q.channel_id⟩],
        flushLog := s.flushLog ++ [⟨q.bid, q.messages, q.user_id, q.channel_id, s.now⟩] }

/-- The `finally:` block of `_process_queue`, entered when the awaited
callback `i` returns or raises: `if queue_key in _active_queues: del …` —
whatever queue currently sits at the key is removed (ghost: pushed to the
graveyard). -/
def processQueueCleanup (s : SysState) (i : Nat) : Option SysState :=
  match s.pending.get? i with
  | none => none
  | some p =>
      let s1 := { s with pending := s.pending.eraseIdx i }
      match s1.registry p.pkey with
      | none => some s1
      | some q =>
          some { s1 with
                 registry := fun k => if k = p.pkey then none else s1.registry k,
                 graveyard := s1.graveyard ++ [q] }

/-- `queue.timer = asyncio.create_task(_batch_timer …)`: append a fresh
timer for the key with deadline `now + BATCH_TIMEOUT` and point the
registered queue's `timer` field at it. -/
def startTimerAttach (s : SysState) (queue_key : String) (q : MessageQueue) : SysState :=
  let idx := s.timers.length
  { s with
    timers := s.timers ++ [⟨queue_key, s.now + BATCH_TIMEOUT_MS, false, false⟩],
    registry := fun k =>
      if k = queue_key then some { q with timer := some idx } else s.registry k }

/-- `enqueue_message`: build the `QueuedMessage` from the event, create a
fresh queue when the key is absent or the resident queue is `processing`,
otherwise cancel the pending timer and append; on reaching
`MAX_BATCH_SIZE` process immediately and return, else start a new timer. -/
def enqueue_message (s : SysState) (user_id channel_id : String) (event : SlackEvt) :
    SysState :=
  let queue_key := _make_queue_key user_id channel_id
  let queued_msg : QueuedMessage :=
    { text := event.text, received_at := s.now, slack_ts := event.ts,
      thread_ts := event.thread_ts }
  match s.registry queue_key with
  | none =>
      let q : MessageQueue :=
        ⟨s.nextBid, queue_key, [queued_msg], none, "accumulating", user_id, channel_id⟩
      let s1 := { s with nextBid := s.nextBid + 1,
                         registry := fun k =>
                           if k = queue_key then some q else s.registry k }
      startTimerAttach s1 queue_key q
  | some old =>
      if old.status = "processing" then
        let q : MessageQueue :=
          ⟨s.nextBid, queue_key, [queued_msg], none, "accumulating", user_id, channel_id⟩
        let s1 := { s with nextBid := s.nextBid + 1,
                           registry := fun k =>
                             if k = queue_key then some q else s.registry k,
                           graveyard := s.graveyard ++ [old] }
        startTimerAttach s1 queue_key q
      else
        let timers' :=
          match old.timer with
          | none => s.timers
          | some i => cancelTimerIdx s.timers i
        let q := { old with messages := old.messages ++ [queued_msg] }
        let s1 := { s with timers := timers',
                           registry := fun k =>
                             if k = queue_key then some q else s.registry k }
        if MAX_BATCH_SIZE ≤ q.messages.length then
          processQueueBegin s1 queue_key
        else
          startTimerAttach s1 queue_key q

/-- The schedulable events of the queue module. -/
inductive QEvent where
  | arrive (t : Nat) (user_id channel_id : String) (event : SlackEvt)
  | fire (t : Nat) (idx : Nat)
  | complete (t : Nat) (idx : Nat)
deriving DecidableEq, Repr

/-- One event step.  `none` means the event cannot happen in this state
(time regression, a cancelled/fired/unexpired timer firing, or a completion
with no matching in-flight callback). -/
def applyEvent (s : SysState) : QEvent → Option SysState
  | .arrive t u c ev =>
      if t < s.now then none
      else some (enqueue_message { s with now := t } u c ev)
  | .fire t i =>
      if t < s.now then none
      else
        match s.timers.get? i with
        | none => none
        | some tt =>
            if tt.cancelled || tt.fired || t < tt.deadline then none
            else
              let s1 := { s with now := t, timers := s.timers.set i { tt with fired := true } }
              some (processQueueBegin s1 tt.tkey)
  | .complete t i =>
      if t < s.now then none
      else processQueueCleanup { s with now := t } i

/-- Run a list of events from a state; `none` if any event is impossible. -/
def runTrace : SysState → List QEvent → Option SysState
  | s, [] => some s
  | s, e :: es =>
      match applyEvent s e with
      | none => none
      | some s' => runTrace s' es

/-- The module's initial state: empty registry, no timers, nothing in flight. -/
def initState : SysState :=
  { now := 0, nextBid := 0, registry := fun _ => none, timers := [],
    pending := [], flushLog := [], graveyard := [] }

/-- A timer task that can no longer fire. -/
def timerDead (t : TimerTask) : Bool := t.cancelled || t.fired

/-- No live timer and no in-flight callback: every flush that will ever
happen has happened and completed. -/
def quiescent (s : SysState) : Bool :=
  s.timers.all timerDead && s.pending.isEmpty

/-- `(l ++ [a]).eraseIdx l.length = l`. -/
theorem eraseIdx_concat_length (l : List PendingFlush) (a : PendingFlush) :
    (l ++ [a]).eraseIdx l.length = l := by
  induction l with
  | nil => rfl
  | cons x xs ih => simpa [List.eraseIdx] using ih

/-- **C1.** Triggering flush twice for the same key executes the processor
callback exactly once: the first `_process_queue` invokes it and, once the
callback completes, removes the key, so the second `_process_queue` finds
the key absent and only logs and returns, changing nothing. -/
theorem flush_twice_idempotent (s : SysState) (k : String) (q : MessageQueue)
    (hq : s.registry k = some q) :
    (processQueueBegin s k).flushLog
        = s.flushLog ++ [⟨q.bid, q.messages, q.user_id, q.channel_id, s.now⟩] ∧
    ∃ s2, processQueueCleanup (processQueueBegin s k) s.pending.length = some s2 ∧
      s2.registry k = none ∧
      s2.flushLog
        = s.flushLog ++ [⟨q.bid, q.messages, q.user_id, q.channel_id, s.now⟩] ∧
      processQueueBegin s2 k = s2 := by
  have hbegin :
      processQueueBegin s k =
        { s with
          registry := fun k' =>
            if k' = k then some { q with status := "processing" } else s.registry k',
          pending := s.pending ++ [⟨q.bid, k, q.messages, q.user_id, q.channel_id⟩],
          flushLog := s.flushLog ++ [⟨q.bid, q.messages, q.user_id, q.channel_id, s.now⟩] } := by
    unfold processQueueBegin
    rw [hq]
  have hclean :
      processQueueCleanup (processQueueBegin s k) s.pending.length = some
        { now := s.now, nextBid := s.nextBid,
          registry := fun k' =>
            if k' = k then none
            else if k' = k then some { q with status := "processing" } else s.registry k',
          timers := s.timers,
          pending := s.pending,
          flushLog := s.flushLog ++ [⟨q.bid, q.messages, q.user_id, q.channel_id, s.now⟩],
          graveyard := s.graveyard ++ [{ q with status := "processing" }] } := by
    rw [hbegin]
    unfold processQueueCleanup
    simp [List.get?_eq_getElem?, List.getElem?_concat_length, eraseIdx_concat_length]
  refine ⟨by rw [hbegin], _, hclean, by simp, rfl, ?_⟩
  unfold processQueueBegin
  simp

theorem cancelTimerIdx_length (ts : List TimerTask) (i : Nat) :
    (cancelTimerIdx ts i).length = ts.length := by
  unfold cancelTimerIdx
  cases h : ts.get? i with
  | none => rfl
  | some t =>
      by_cases hf : t.fired <;> simp [hf]

/-- **C5.** When appending a message brings a batch to `MAX_BATCH_SIZE`,
`enqueue_message` triggers the flush immediately during that enqueue (the
processor callback is invoked at the enqueue's own time), no new timer is
started for the batch, and the batch transitions to `processing` with its
flush in flight. -/
theorem size_cap_immediate_flush (s : SysState) (u c : String) (ev : SlackEvt)
    (q : MessageQueue) (t : Nat)
    (hq : s.registry (_make_queue_key u c) = some q)
    (hacc : q.status = "accumulating")
    (hlen : q.messages.length + 1 = MAX_BATCH_SIZE) :
    (enqueue_message { s with now := t } u c ev).flushLog
        = s.flushLog ++ [⟨q.bid, q.messages ++ [⟨ev.text, t, ev.ts, ev.thread_ts⟩],
            q.user_id, q.channel_id, t⟩] ∧
    (enqueue_message { s with now := t } u c ev).timers.length = s.timers.length ∧
    (enqueue_message { s with now := t } u c ev).registry (_make_queue_key u c)
        = some { q with messages := q.messages ++ [⟨ev.text, t, ev.ts, ev.thread_ts⟩],
                        status := "processing" } ∧
    (enqueue_message { s with now := t } u c ev).pending
        = s.pending ++ [⟨q.bid, _make_queue_key u c,
            q.messages ++ [⟨ev.text, t, ev.ts, ev.thread_ts⟩],
            q.user_id, q.channel_id⟩] := by
  have hsp : ¬ q.status = "processing" := by
    rw [hacc]; decide
  have hcap : MAX_BATCH_SIZE ≤ (q.messages ++ [(⟨ev.text, t, ev.ts, ev.thread_ts⟩ : QueuedMessage)]).length := by
    simp [List.length_append, ← hlen]
  have henq :
      enqueue_message { s with now := t } u c ev =
        processQueueBegin
          { s with now := t,
                   timers :=
                     match q.timer with
                     | none => s.timers
                     | some i => cancelTimerIdx s.timers i,
                   registry := fun k =>
                     if k = _make_queue_key u c then
                       some { q with messages := q.messages ++ [⟨ev.text, t, ev.ts, ev.thread_ts⟩] }
                     else s.registry k }
          (_make_queue_key u c) := by
    simp only [enqueue_message, hq]
    rw [if_neg hsp, if_pos hcap]
  rw [henq]
  unfold processQueueBegin
  simp only [if_pos rfl]
  refine ⟨rfl, ?_, by simp, rfl⟩
  cases q.timer with
  | none => rfl
  | some i => simpa using cancelTimerIdx_length s.timers i

/-- Event trace of the lost-batch race: a batch flushes by timer; while its
callback is in flight a new message arrives (creating a fresh batch under
the same key); the old flush's `finally:` cleanup then deletes the fresh
batch; its still-live timer later fires on the now-absent key as a no-op. -/
def lostBatchTrace : List QEvent :=
  [.arrive 0 "U1" "C1" ⟨"first", "1.0", none⟩,
   .fire 2000 0,
   .arrive 2500 "U1" "C1" ⟨"second", "2.0", none⟩,
   .complete 3000 0,
   .fire 4500 1]

/-- **C2 (violation).** Running `lostBatchTrace` ends in a quiescent state in
which batch 1 — still in state `accumulating`, never flushed (the only flush
record is batch 0's) — has been removed from the registry by the stale
cleanup, and its message `"second"` is dropped without ever reaching the
processor callback.  This contradicts the registry invariant that a batch
leaves the registry only when its own flush completes. -/
theorem lost_batch_invariant_violation :
    (runTrace initState lostBatchTrace).map (fun s =>
        ((s.registry "U1:C1").isNone,
         s.graveyard.map (fun q => (q.bid, q.status, q.messages.map QueuedMessage.text)),
         s.flushLog.map (fun r => (r.fbid, r.fmessages.map QueuedMessage.text)),
         s.pending.isEmpty,
         quiescent s))
      = some (true,
              [(0, "processing", ["first"]), (1, "accumulating", ["second"])],
              [(0, ["first"])],
              true, true) := by
  rfl

/-- Splitting at a separator character absent from both left parts is
injective. -/
theorem append_sep_inj (sep : Char) :
    ∀ (a b x y : List Char), sep ∉ a → sep ∉ b →
      a ++ sep :: x = b ++ sep :: y → a = b ∧ x = y := by
  intro a
  induction a with
  | nil =>
      intro b x y _ hb h
      cases b with
      | nil => simpa using h
      | cons c bs =>
          exfalso
          simp only [List.nil_append, List.cons_append, List.cons.injEq] at h
          exact hb (h.1 ▸ List.mem_cons_self c bs)
  | cons c as ih =>
      intro b x y ha hb h
      cases b with
      | nil =>
          exfalso
          simp only [List.cons_append, List.nil_append, List.cons.injEq] at h
          exact ha (h.1 ▸ List.mem_cons_self c as)
      | cons d bs =>
          simp only [List.cons_append, List.cons.injEq] at h
          obtain ⟨rfl, h2⟩ := h
          have ha' : sep ∉ as := fun hm => ha (List.mem_cons_of_mem _ hm)
          have hb' : sep ∉ bs := fun hm => hb (List.mem_cons_of_mem _ hm)
          obtain ⟨rfl, rfl⟩ := ih bs x y ha' hb' h2
          exact ⟨rfl, rfl⟩

/-- `_make_queue_key` distinguishes distinct pairs whose user ids contain no
colon. -/
theorem make_queue_key_inj (u1 c1 u2 c2 : String)
    (h1 : ':' ∉ u1.data) (h2 : ':' ∉ u2.data)
    (heq : _make_queue_key u1 c1 = _make_queue_key u2 c2) : u1 = u2 ∧ c1 = c2 := by
  have hd := congrArg String.data heq
  have hcolon : (":" : String).data = [':'] := rfl
  simp only [_make_queue_key, String.data_append, hcolon, List.append_assoc,
    List.cons_append, List.nil_append] at hd
  obtain ⟨hu, hc⟩ := append_sep_inj ':' _ _ _ _ h1 h2 hd
  exact ⟨String.ext hu, String.ext hc⟩

/-- An enqueue never touches registry entries of other keys. -/
theorem enqueue_registry_other (s : SysState) (u c : String) (ev : SlackEvt) (k : String)
    (hk : ¬ k = _make_queue_key u c) :
    (enqueue_message s u c ev).registry k = s.registry k := by
  cases h : s.registry (_make_queue_key u c) with
  | none => simp [enqueue_message, startTimerAttach, h, hk]
  | some old =>
      by_cases hp : old.status = "processing"
      · simp [enqueue_message, startTimerAttach, h, hp, hk]
      · cases ht : old.timer with
        | none =>
            by_cases hcap : MAX_BATCH_SIZE ≤ old.messages.length + 1 <;>
              simp [enqueue_message, startTimerAttach, processQueueBegin, h, hp, ht,
                hcap, hk, List.length_append]
        | some i =>
            by_cases hcap : MAX_BATCH_SIZE ≤ old.messages.length + 1 <;>
              simp [enqueue_message, startTimerAttach, processQueueBegin, h, hp, ht,
                hcap, hk, List.length_append]

/-- **C8 counterexample.** The composite key does not distinguish every two
distinct pairs: `("a:b", "c")` and `("a", "b:c")` are distinct yet share the
key `"a:b:c"`, and enqueuing one message as each merges both into a single
batch holding both messages. -/
theorem queue_key_collision_counterexample :
    _make_queue_key "a:b" "c" = _make_queue_key "a" "b:c" ∧
    (("a:b", "c") : String × String) ≠ ("a", "b:c") ∧
    (runTrace initState
        [.arrive 0 "a:b" "c" ⟨"m1", "1", none⟩,
         .arrive 10 "a" "b:c" ⟨"m2", "2", none⟩]).map (fun s =>
        (s.registry (_make_queue_key "a:b" "c")).map
          (fun q => (q.bid, q.messages.map QueuedMessage.text)))
      = some (some (0, ["m1", "m2"])) := by
  refine ⟨by decide, by decide, by decide⟩

/-- **C8 (amended).** For sender ids containing no `':'`, the composite key
separates any two distinct `(sender, channel)` pairs, and an enqueue for one
key leaves every other key's registry entry untouched, so messages for
distinct pairs never merge into one batch. -/
theorem key_isolation_amended (u1 c1 u2 c2 : String)
    (h1 : ':' ∉ u1.data) (h2 : ':' ∉ u2.data)
    (hne : ¬ (u1 = u2 ∧ c1 = c2)) :
    _make_queue_key u1 c1 ≠ _make_queue_key u2 c2 ∧
    ∀ (s : SysState) (t : Nat) (ev : SlackEvt),
      (enqueue_message { s with now := t } u2 c2 ev).registry (_make_queue_key u1 c1)
        = s.registry (_make_queue_key u1 c1) := by
  have hkey : _make_queue_key u1 c1 ≠ _make_queue_key u2 c2 := fun h =>
    hne (make_queue_key_inj u1 c1 u2 c2 h1 h2 h)
  exact ⟨hkey, fun s t ev => enqueue_registry_other _ u2 c2 ev _ hkey⟩

/-- Witness for C8 (amended): two concrete distinct colon-free pairs get
distinct keys. -/
theorem key_isolation_amended_witness :
    _make_queue_key "U1" "C1" ≠ _make_queue_key "U2" "C1" :=
  (key_isolation_amended "U1" "C1" "U2" "C1" (by decide) (by decide) (by decide)).1

/-! ### Debounce correctness (C4)

The sliding-window property is proved over *all* valid schedules: the
arrivals are pinned to one key at given times, and timer firings and
callback completions may interleave anywhere the semantics allows. -/

/-- The `QueuedMessage` built by `enqueue_message` for an event arriving at
time `t` (`received_at = now`). -/
def mkQueuedMsg (p : Nat × SlackEvt) : QueuedMessage :=
  ⟨p.2.text, p.1, p.2.ts, p.2.thread_ts⟩

/-- A debounce timer created at time `t` and later cancelled. -/
def deadTimerFor (k : String) (t : Nat) : TimerTask :=
  ⟨k, t + BATCH_TIMEOUT_MS, true, false⟩

/-- A debounce timer created at time `t`, still pending. -/
def liveTimerFor (k : String) (t : Nat) : TimerTask :=
  ⟨k, t + BATCH_TIMEOUT_MS, false, false⟩

/-- A debounce timer created at time `t` that has fired. -/
def firedTimerFor (k : String) (t : Nat) : TimerTask :=
  ⟨k, t + BATCH_TIMEOUT_MS, false, true⟩

/-- The subsequence of `arrive` events of a trace. -/
def arrivalsOf : List QEvent → List QEvent
  | [] => []
  | .arrive t u c ev :: es => .arrive t u c ev :: arrivalsOf es
  | .fire _ _ :: es => arrivalsOf es
  | .complete _ _ :: es => arrivalsOf es

/-- The arrive events for a list of timed Slack events, all to one key. -/
def arriveEvts (u c : String) (gs : List (Nat × SlackEvt)) : List QEvent :=
  gs.map (fun p => .arrive p.1 u c p.2)

/-- Times are ordered and each inter-arrival gap is strictly below the
debounce window. -/
def slidingOk (prev : Nat) : List Nat → Bool
  | [] => true
  | t :: ts => (prev ≤ t && t < prev + BATCH_TIMEOUT_MS) && slidingOk t ts

/-- The state while the single batch is accumulating: after the arrivals
`gs ++ [last]`, the batch (ghost id 0) holds all their messages in order,
every timer but the last is cancelled, and nothing has flushed. -/
structure AccumShape (u c : String) (gs : List (Nat × SlackEvt)) (last : Nat × SlackEvt)
    (s : SysState) : Prop where
  hnow : s.now = last.1
  hreg : s.registry (_make_queue_key u c) =
      some ⟨0, _make_queue_key u c, (gs ++ [last]).map mkQueuedMsg, some gs.length,
            "accumulating", u, c⟩
  hregO : ∀ k', k' ≠ _make_queue_key u c → s.registry k' = none
  htim : s.timers =
      gs.map (fun p => deadTimerFor (_make_queue_key u c) p.1)
        ++ [liveTimerFor (_make_queue_key u c) last.1]
  hpend : s.pending = []
  hlog : s.flushLog = []

/-- The state after the last timer fired at `tf`: the callback is in flight
with all messages, the batch is `processing`, and the flush is logged. -/
structure FlushShape (u c : String) (gs : List (Nat × SlackEvt)) (last : Nat × SlackEvt)
    (tf : Nat) (s : SysState) : Prop where
  hnow : s.now = tf
  hreg : s.registry (_make_queue_key u c) =
      some ⟨0, _make_queue_key u c, (gs ++ [last]).map mkQueuedMsg, some gs.length,
            "processing", u, c⟩
  hregO : ∀ k', k' ≠ _make_queue_key u c → s.registry k' = none
  htim : s.timers =
      gs.map (fun p => deadTimerFor (_make_queue_key u c) p.1)
        ++ [firedTimerFor (_make_queue_key u c) last.1]
  hpend : s.pending =
      [⟨0, _make_queue_key u c, (gs ++ [last]).map mkQueuedMsg, u, c⟩]
  hlog : s.flushLog =
      [⟨0, (gs ++ [last]).map mkQueuedMsg, u, c, tf⟩]

/-- The state after the flush's cleanup: registry empty, timers spent, the
one flush on record. -/
structure DoneShape (u c : String) (gs : List (Nat × SlackEvt)) (last : Nat × SlackEvt)
    (tf : Nat) (s : SysState) : Prop where
  hreg : ∀ k', s.registry k' = none
  htim : s.timers =
      gs.map (fun p => deadTimerFor (_make_queue_key u c) p.1)
        ++ [firedTimerFor (_make_queue_key u c) last.1]
  hpend : s.pending = []
  hlog : s.flushLog =
      [⟨0, (gs ++ [last]).map mkQueuedMsg, u, c, tf⟩]

theorem set_concat {α : Type} (A : List α) (x y : α) :
    (A ++ [x]).set A.length y = A ++ [y] := by
  induction A with
  | nil => rfl
  | cons a as ih => simp [List.set, ih]

/-- The first arrival creates the batch with exactly that message and a
fresh timer one window out. -/
theorem arrive_base (u c : String) (p : Nat × SlackEvt) :
    AccumShape u c [] p (enqueue_message { initState with now := p.1 } u c p.2) := by
  refine ⟨?_, ?_, ?_, ?_, ?_, ?_⟩ <;>
    simp [enqueue_message, startTimerAttach, initState, mkQueuedMsg, liveTimerFor]
  intro k' hk'
  simp [hk']

/-- Each further (sub-cap) arrival cancels the pending timer, appends the
message, and starts a fresh timer one window after itself. -/
theorem arrive_step (u c : String) (gs : List (Nat × SlackEvt))
    (last next : Nat × SlackEvt) (s : SysState)
    (hS : AccumShape u c gs last s)
    (hlen : gs.length + 2 < MAX_BATCH_SIZE) :
    AccumShape u c (gs ++ [last]) next
      (enqueue_message { s with now := next.1 } u c next.2) := by
  have hsp : ¬ ("accumulating" : String) = "processing" := by decide
  have hcap : ¬ (MAX_BATCH_SIZE ≤ ((gs ++ [last]).map mkQueuedMsg
      ++ [(⟨next.2.text, next.1, next.2.ts, next.2.thread_ts⟩ : QueuedMessage)]).length) := by
    simp only [List.length_append, List.length_map, List.length_cons, List.length_nil]
    omega
  have hget : s.timers.get? gs.length =
      some (liveTimerFor (_make_queue_key u c) last.1) := by
    rw [hS.htim]
    have : gs.length = (gs.map (fun p => deadTimerFor (_make_queue_key u c) p.1)).length := by
      simp
    rw [this, List.get?_concat_length]
  have htim' : cancelTimerIdx s.timers gs.length =
      gs.map (fun p => deadTimerFor (_make_queue_key u c) p.1)
        ++ [deadTimerFor (_make_queue_key u c) last.1] := by
    unfold cancelTimerIdx
    rw [hget]
    simp only [liveTimerFor]
    rw [hS.htim]
    have : gs.length = (gs.map (fun p => deadTimerFor (_make_queue_key u c) p.1)).length := by
      simp
    rw [this, set_concat]
    rfl
  have henq :
      enqueue_message { s with now := next.1 } u c next.2 =
        startTimerAttach
          { s with now := next.1,
                   timers := cancelTimerIdx s.timers gs.length,
                   registry := fun k =>
                     if k = _make_queue_key u c then
                       some ⟨0, _make_queue_key u c,
                             (gs ++ [last]).map mkQueuedMsg
                               ++ [⟨next.2.text, next.1, next.2.ts, next.2.thread_ts⟩],
                             some gs.length, "accumulating", u, c⟩
                     else s.registry k }
          (_make_queue_key u c)
          ⟨0, _make_queue_key u c,
           (gs ++ [last]).map mkQueuedMsg
             ++ [⟨next.2.text, next.1, next.2.ts, next.2.thread_ts⟩],
           some gs.length, "accumulating", u, c⟩ := by
    simp only [enqueue_message, hS.hreg]
    rw [if_neg hsp, if_neg hcap]
  rw [henq]
  have hlenT : (cancelTimerIdx s.timers gs.length).length = gs.length + 1 := by
    rw [htim']
    simp
  refine ⟨rfl, ?_, ?_, ?_, hS.hpend, hS.hlog⟩
  · simp only [startTimerAttach, hlenT, if_pos rfl]
    simp [mkQueuedMsg, List.map_append]
  · intro k' hk'
    simp only [startTimerAttach]
    simp [hk', hS.hregO k' hk']
  · simp only [startTimerAttach, htim']
    simp [List.map_append, liveTimerFor]

/-- A `fire` event is impossible when every timer is cancelled or spent. -/
theorem fire_none_of_all_dead (s : SysState) (t j : Nat)
    (h : s.timers.all timerDead = true) :
    applyEvent s (.fire t j) = none := by
  simp only [applyEvent]
  by_cases hlt : t < s.now
  · simp [hlt]
  · rw [if_neg hlt]
    cases hg : s.timers.get? j with
    | none => rfl
    | some tt =>
        have hdead : timerDead tt = true :=
          List.all_eq_true.mp h tt (List.get?_mem hg)
        unfold timerDead at hdead
        by_cases hc : tt.cancelled = true
        · simp [hc]
        · have hf : tt.fired = true := by
            revert hdead
            cases htc : tt.cancelled <;> cases htf : tt.fired <;> simp_all
          simp [hf]

/-- A `complete` event is impossible when no callback is in flight. -/
theorem complete_none_of_no_pending (s : SysState) (t j : Nat)
    (h : s.pending = []) :
    applyEvent s (.complete t j) = none := by
  simp only [applyEvent, processQueueCleanup]
  by_cases hlt : t < s.now <;> simp [hlt, h]

/-- From an accumulating state, the only possible `fire` is the live timer
(index `gs.length`), it cannot fire before one debounce window after the
last arrival, and it moves the system to the flushing state. -/
theorem fire_from_accum (u c : String) (gs : List (Nat × SlackEvt))
    (last : Nat × SlackEvt) (s s' : SysState) (t j : Nat)
    (hS : AccumShape u c gs last s)
    (happ : applyEvent s (.fire t j) = some s') :
    j = gs.length ∧ last.1 + BATCH_TIMEOUT_MS ≤ t ∧ FlushShape u c gs last t s' := by
  simp only [applyEvent] at happ
  by_cases hlt : t < s.now
  · rw [if_pos hlt] at happ
    exact absurd happ (by simp)
  · rw [if_neg hlt] at happ
    by_cases hjlt : j < gs.length
    · exfalso
      have hg : s.timers.get? j = some (deadTimerFor (_make_queue_key u c)
          ((gs.get ⟨j, hjlt⟩).1)) := by
        rw [hS.htim]
        rw [List.get?_append (by simpa using hjlt)]
        rw [List.get?_map]
        rw [List.get?_eq_get hjlt]
        rfl
      rw [hg] at happ
      simp [deadTimerFor] at happ
    · by_cases hje : j = gs.length
      · subst hje
        have hg : s.timers.get? gs.length =
            some (liveTimerFor (_make_queue_key u c) last.1) := by
          rw [hS.htim]
          have hl : gs.length =
              (gs.map (fun p => deadTimerFor (_make_queue_key u c) p.1)).length := by simp
          rw [hl, List.get?_concat_length]
        rw [hg] at happ
        by_cases hdl : t < last.1 + BATCH_TIMEOUT_MS
        · exfalso
          simp [liveTimerFor, hdl] at happ
        · refine ⟨rfl, by omega, ?_⟩
          have hset : s.timers.set gs.length
              (⟨_make_queue_key u c, last.1 + BATCH_TIMEOUT_MS, false, true⟩ : TimerTask) =
              gs.map (fun p => deadTimerFor (_make_queue_key u c) p.1)
                ++ [firedTimerFor (_make_queue_key u c) last.1] := by
            rw [hS.htim]
            have hl : gs.length =
                (gs.map (fun p => deadTimerFor (_make_queue_key u c) p.1)).length := by simp
            rw [hl, set_concat]
            rfl
          simp only [liveTimerFor, hdl, Bool.or_false, Bool.or_self, if_false,
            decide_eq_true_eq, Bool.false_or, decide_False, Bool.false_eq_true,
            Option.some.injEq] at happ
          have hbegin :
              processQueueBegin
                { s with now := t,
                         timers := s.timers.set gs.length
                           (⟨_make_queue_key u c, last.1 + BATCH_TIMEOUT_MS, false, true⟩ : TimerTask) }
                (_make_queue_key u c) =
              { s with now := t,
                       timers := gs.map (fun p => deadTimerFor (_make_queue_key u c) p.1)
                         ++ [firedTimerFor (_make_queue_key u c) last.1],
                       registry := fun k' =>
                         if k' = _make_queue_key u c then
                           some ⟨0, _make_queue_key u c, (gs ++ [last]).map mkQueuedMsg,
                                 some gs.length, "processing", u, c⟩
                         else s.registry k',
                       pending := s.pending ++
                         [⟨0, _make_queue_key u c, (gs ++ [last]).map mkQueuedMsg, u, c⟩],
                       flushLog := s.flushLog ++
                         [⟨0, (gs ++ [last]).map mkQueuedMsg, u, c, t⟩] } := by
            simp only [processQueueBegin, hS.hreg, liveTimerFor, hset]
          rw [← happ]
          rw [hbegin]
          refine ⟨rfl, by simp, ?_, rfl, ?_, ?_⟩
          · intro k' hk'
            simp [hk', hS.hregO k' hk']
          · rw [hS.hpend]; rfl
          · rw [hS.hlog]; rfl
      · exfalso
        have hg : s.timers.get? j = none := by
          rw [hS.htim]
          apply List.get?_eq_none.mpr
          simp
          omega
        rw [hg] at happ
        exact absurd happ (by simp)

/-- From the flushing state, a `complete` event runs the cleanup: the key is
removed and nothing else changes. -/
theorem complete_from_flush (u c : String) (gs : List (Nat × SlackEvt))
    (last : Nat × SlackEvt) (tf : Nat) (s s' : SysState) (t j : Nat)
    (hS : FlushShape u c gs last tf s)
    (happ : applyEvent s (.complete t j) = some s') :
    DoneShape u c gs last tf s' := by
  simp only [applyEvent] at happ
  by_cases hlt : t < s.now
  · rw [if_pos hlt] at happ
    exact absurd happ (by simp)
  · rw [if_neg hlt] at happ
    simp only [processQueueCleanup, hS.hpend] at happ
    cases j with
    | succ n => simp at happ
    | zero =>
        simp only [List.get?, hS.hreg] at happ
        simp only [Option.some.injEq] at happ
        rw [← happ]
        refine ⟨?_, hS.htim, by simp, hS.hlog⟩
        intro k'
        by_cases hk' : k' = _make_queue_key u c
        · simp [hk']
        · simp [hk', hS.hregO k' hk']

/-- Once the flush has completed, no further event is possible except
invalid ones: the done state persists to the end of any trace without
arrivals. -/
theorem run_from_done (u c : String) (gs : List (Nat × SlackEvt))
    (last : Nat × SlackEvt) (tf : Nat) :
    ∀ (tr : List QEvent) (s sFin : SysState),
      DoneShape u c gs last tf s →
      arrivalsOf tr = [] →
      runTrace s tr = some sFin →
      DoneShape u c gs last tf sFin := by
  intro tr
  induction tr with
  | nil =>
      intro s sFin hD _ hrun
      simp only [runTrace, Option.some.injEq] at hrun
      exact hrun ▸ hD
  | cons e tr' ih =>
      intro s sFin hD harr hrun
      have halldead : s.timers.all timerDead = true := by
        rw [hD.htim]
        apply List.all_eq_true.mpr
        intro x hx
        rcases List.mem_append.mp hx with hx | hx
        · rcases List.mem_map.mp hx with ⟨p, hp, rfl⟩
          rfl
        · rcases List.mem_singleton.mp hx with rfl
          rfl
      cases e with
      | arrive t u' c' ev => simp [arrivalsOf] at harr
      | fire t j =>
          rw [runTrace, fire_none_of_all_dead s t j halldead] at hrun
          exact absurd hrun (by simp)
      | complete t j =>
          rw [runTrace, complete_none_of_no_pending s t j hD.hpend] at hrun
          exact absurd hrun (by simp)

/-- From the flushing state, the only way forward in a trace without
arrivals is the flush's completion; quiescence forces it to happen. -/
theorem run_from_flush (u c : String) (gs : List (Nat × SlackEvt))
    (last : Nat × SlackEvt) (tf : Nat)
    (tr : List QEvent) (s sFin : SysState)
    (hS : FlushShape u c gs last tf s)
    (harr : arrivalsOf tr = [])
    (hrun : runTrace s tr = some sFin)
    (hq : quiescent sFin = true) :
    DoneShape u c gs last tf sFin := by
  cases tr with
  | nil =>
      exfalso
      simp only [runTrace, Option.some.injEq] at hrun
      rw [← hrun] at hq
      simp [quiescent, hS.hpend] at hq
  | cons e tr' =>
      have halldead : s.timers.all timerDead = true := by
        rw [hS.htim]
        apply List.all_eq_true.mpr
        intro x hx
        rcases List.mem_append.mp hx with hx | hx
        · rcases List.mem_map.mp hx with ⟨p, hp, rfl⟩
          rfl
        · rcases List.mem_singleton.mp hx with rfl
          rfl
      cases e with
      | arrive t u' c' ev => simp [arrivalsOf] at harr
      | fire t j =>
          rw [runTrace, fire_none_of_all_dead s t j halldead] at hrun
          exact absurd hrun (by simp)
      | complete t j =>
          rw [runTrace] at hrun
          cases happ : applyEvent s (.complete t j) with
          | none => rw [happ] at hrun; exact absurd hrun (by simp)
          | some s1 =>
              rw [happ] at hrun
              have hD := complete_from_flush u c gs last tf s s1 t j hS happ
              exact run_from_done u c gs last tf tr' s1 sFin hD (by simpa [arrivalsOf] using harr) hrun

theorem begin_now (s : SysState) (k : String) : (processQueueBegin s k).now = s.now := by
  unfold processQueueBegin
  cases s.registry k <;> rfl

theorem enqueue_now (s : SysState) (u c : String) (ev : SlackEvt) :
    (enqueue_message s u c ev).now = s.now := by
  cases h : s.registry (_make_queue_key u c) with
  | none => simp [enqueue_message, startTimerAttach, h]
  | some old =>
      by_cases hp : old.status = "processing"
      · simp [enqueue_message, startTimerAttach, h, hp]
      · cases ht : old.timer with
        | none =>
            by_cases hcap : MAX_BATCH_SIZE ≤ old.messages.length + 1 <;>
              simp [enqueue_message, startTimerAttach, h, hp, ht, hcap,
                List.length_append, begin_now]
        | some i =>
            by_cases hcap : MAX_BATCH_SIZE ≤ old.messages.length + 1 <;>
              simp [enqueue_message, startTimerAttach, h, hp, ht, hcap,
                List.length_append, begin_now]

/-- Every possible event moves the clock forward. -/
theorem applyEvent_now_ge (s s' : SysState) (e : QEvent)
    (h : applyEvent s e = some s') : s.now ≤ s'.now := by
  cases e with
  | arrive t u' c' ev =>
      simp only [applyEvent] at h
      by_cases hlt : t < s.now
      · rw [if_pos hlt] at h; exact absurd h (by simp)
      · rw [if_neg hlt] at h
        have hs : s' = enqueue_message { s with now := t } u' c' ev :=
          (Option.some.inj h).symm
        rw [hs, enqueue_now]
        exact le_of_not_lt hlt
  | fire t i =>
      simp only [applyEvent] at h
      by_cases hlt : t < s.now
      · rw [if_pos hlt] at h; exact absurd h (by simp)
      · rw [if_neg hlt] at h
        cases hg : s.timers.get? i with
        | none => rw [hg] at h; exact absurd h (by simp)
        | some tt =>
            simp only [hg] at h
            by_cases hc : (tt.cancelled || tt.fired || decide (t < tt.deadline)) = true
            · rw [if_pos hc] at h; exact absurd h (by simp)
            · rw [if_neg hc] at h
              have hs : s' = processQueueBegin _ tt.tkey := (Option.some.inj h).symm
              rw [hs, begin_now]
              exact le_of_not_lt hlt
  | complete t i =>
      simp only [applyEvent] at h
      by_cases hlt : t < s.now
      · rw [if_pos hlt] at h; exact absurd h (by simp)
      · rw [if_neg hlt] at h
        simp only [processQueueCleanup] at h
        cases hg : s.pending.get? i with
        | none => rw [hg] at h; exact absurd h (by simp)
        | some p =>
            simp only [hg] at h
            cases hr : s.registry p.pkey with
            | none =>
                simp only [hr] at h
                have hs := (Option.some.inj h).symm
                rw [hs]
                exact le_of_not_lt hlt
            | some q =>
                simp only [hr] at h
                have hs := (Option.some.inj h).symm
                rw [hs]
                exact le_of_not_lt hlt

/-- In a run that succeeds, every arrive event's time is at least the
starting clock. -/
theorem runTrace_arrive_ge (t : Nat) (u' c' : String) (ev : SlackEvt) :
    ∀ (tr : List QEvent) (s sFin : SysState),
      runTrace s tr = some sFin →
      QEvent.arrive t u' c' ev ∈ tr →
      s.now ≤ t := by
  intro tr
  induction tr with
  | nil => intro s sFin _ hmem; simp at hmem
  | cons e tr' ih =>
      intro s sFin hrun hmem
      rw [runTrace] at hrun
      cases happ : applyEvent s e with
      | none => rw [happ] at hrun; exact absurd hrun (by simp)
      | some s1 =>
          rw [happ] at hrun
          rcases List.mem_cons.mp hmem with rfl | hmem'
          · simp only [applyEvent] at happ
            by_cases hlt : t < s.now
            · rw [if_pos hlt] at happ; exact absurd happ (by simp)
            · exact le_of_not_lt hlt
          · exact le_trans (applyEvent_now_ge s s1 e happ) (ih s1 sFin hrun hmem')

theorem arrivalsOf_head_mem : ∀ (tr : List QEvent) (e : QEvent) (l : List QEvent),
    arrivalsOf tr = e :: l → e ∈ tr := by
  intro tr
  induction tr with
  | nil => intro e l h; simp [arrivalsOf] at h
  | cons f tr' ih =>
      intro e l h
      cases f with
      | arrive t u c ev =>
          simp only [arrivalsOf, List.cons.injEq] at h
          exact h.1 ▸ List.mem_cons_self _ _
      | fire t j =>
          simp only [arrivalsOf] at h
          exact List.mem_cons_of_mem _ (ih e l h)
      | complete t j =>
          simp only [arrivalsOf] at h
          exact List.mem_cons_of_mem _ (ih e l h)

/-- From an accumulating state, any valid schedule of the remaining
arrivals (with sub-window gaps and total below the cap) that ends quiescent
produces exactly one flush, holding all messages in arrival order, no
earlier than one debounce window after the last arrival; the registry ends
empty. -/
theorem run_from_accum (u c : String) :
    ∀ (tr : List QEvent) (gs : List (Nat × SlackEvt)) (last : Nat × SlackEvt)
      (rest : List (Nat × SlackEvt)) (s sFin : SysState),
      AccumShape u c gs last s →
      gs.length + 1 + rest.length < MAX_BATCH_SIZE →
      slidingOk last.1 (rest.map Prod.fst) = true →
      arrivalsOf tr = arriveEvts u c rest →
      runTrace s tr = some sFin →
      quiescent sFin = true →
      ∃ tf, (rest.map Prod.fst).getLastD last.1 + BATCH_TIMEOUT_MS ≤ tf ∧
        sFin.flushLog = [⟨0, ((gs ++ [last]) ++ rest).map mkQueuedMsg, u, c, tf⟩] ∧
        QEvent.fire tf (gs.length + rest.length) ∈ tr ∧
        ∀ k', sFin.registry k' = none := by
  intro tr
  induction tr with
  | nil =>
      intro gs last rest s sFin hS _ _ _ hrun hq
      exfalso
      simp only [runTrace, Option.some.injEq] at hrun
      rw [← hrun] at hq
      simp [quiescent, hS.htim, hS.hpend, List.all_append, timerDead, liveTimerFor] at hq
  | cons e tr' ih =>
      intro gs last rest s sFin hS hlen hgap harr hrun hq
      rw [runTrace] at hrun
      cases happ : applyEvent s e with
      | none => rw [happ] at hrun; exact absurd hrun (by simp)
      | some s1 =>
          rw [happ] at hrun
          cases e with
          | arrive t u' c' ev =>
              cases rest with
              | nil => simp [arrivalsOf, arriveEvts] at harr
              | cons r rest' =>
                  simp only [arrivalsOf, arriveEvts, List.map_cons, List.cons.injEq,
                    QEvent.arrive.injEq] at harr
                  obtain ⟨⟨ht, hu, hc2, hev⟩, harr'⟩ := harr
                  rw [ht, hu, hc2, hev] at happ
                  simp only [slidingOk, List.map_cons, Bool.and_eq_true,
                    decide_eq_true_eq] at hgap
                  obtain ⟨⟨hle, hwin⟩, hgap'⟩ := hgap
                  simp only [applyEvent] at happ
                  rw [if_neg (by rw [hS.hnow]; omega)] at happ
                  have hs1 : s1 = enqueue_message { s with now := r.1 } u c r.2 :=
                    (Option.some.inj happ).symm
                  have hS' : AccumShape u c (gs ++ [last]) r s1 := by
                    rw [hs1]
                    refine arrive_step u c gs last r s hS ?_
                    simp only [List.length_cons] at hlen
                    omega
                  obtain ⟨tf, hbound, hlog, hfmem, hreg⟩ :=
                    ih (gs ++ [last]) r rest' s1 sFin hS'
                      (by
                        simp only [List.length_append, List.length_cons,
                          List.length_nil] at hlen ⊢
                        omega)
                      hgap' (by simpa [arriveEvts] using harr') hrun hq
                  refine ⟨tf, ?_, ?_, ?_, hreg⟩
                  · rw [List.map_cons, List.getLastD_cons]
                    exact hbound
                  · rw [hlog, ← List.append_cons]
                  · apply List.mem_cons_of_mem
                    have hidx : (gs ++ [last]).length + rest'.length
                        = gs.length + (r :: rest').length := by
                      simp only [List.length_append, List.length_cons, List.length_nil]
                      omega
                    rw [← hidx]
                    exact hfmem
          | fire t j =>
              obtain ⟨hj, hge, hF⟩ := fire_from_accum u c gs last s s1 t j hS happ
              cases rest with
              | nil =>
                  have hD := run_from_flush u c gs last t tr' s1 sFin hF
                    (by simpa [arrivalsOf, arriveEvts] using harr) hrun hq
                  refine ⟨t, by simpa using hge, by simpa using hD.hlog, ?_, hD.hreg⟩
                  rw [hj]
                  simp
              | cons r rest' =>
                  exfalso
                  have harr' : arrivalsOf tr' = arriveEvts u c (r :: rest') := by
                    simpa [arrivalsOf] using harr
                  have hmem : QEvent.arrive r.1 u c r.2 ∈ tr' := by
                    apply arrivalsOf_head_mem tr' _ (arriveEvts u c rest')
                    rw [harr']
                    rfl
                  have hge2 : s1.now ≤ r.1 :=
                    runTrace_arrive_ge r.1 u c r.2 tr' s1 sFin hrun hmem
                  have hnow1 : s1.now = t := hF.hnow
                  simp only [slidingOk, List.map_cons, Bool.and_eq_true,
                    decide_eq_true_eq] at hgap
                  omega
          | complete t j =>
              rw [complete_none_of_no_pending s t j hS.hpend] at happ
              exact absurd happ (by simp)

/-- Starting from the empty module state, the first event of a pinned-trace
run must be the first arrival; after it the accumulation analysis applies. -/
theorem run_from_init (u c : String) (tr : List QEvent) (g0 : Nat × SlackEvt)
    (rest : List (Nat × SlackEvt)) (sFin : SysState)
    (hlen : 1 + rest.length < MAX_BATCH_SIZE)
    (hgap : slidingOk g0.1 (rest.map Prod.fst) = true)
    (harr : arrivalsOf tr = arriveEvts u c (g0 :: rest))
    (hrun : runTrace initState tr = some sFin)
    (hq : quiescent sFin = true) :
    ∃ tf, (rest.map Prod.fst).getLastD g0.1 + BATCH_TIMEOUT_MS ≤ tf ∧
      sFin.flushLog = [⟨0, (g0 :: rest).map mkQueuedMsg, u, c, tf⟩] ∧
      QEvent.fire tf rest.length ∈ tr ∧
      ∀ k', sFin.registry k' = none := by
  cases tr with
  | nil => simp [arrivalsOf, arriveEvts] at harr
  | cons e tr' =>
      rw [runTrace] at hrun
      cases happ : applyEvent initState e with
      | none => rw [happ] at hrun; exact absurd hrun (by simp)
      | some s1 =>
          rw [happ] at hrun
          cases e with
          | arrive t u' c' ev =>
              simp only [arrivalsOf, arriveEvts, List.map_cons, List.cons.injEq,
                QEvent.arrive.injEq] at harr
              obtain ⟨⟨ht, hu, hc2, hev⟩, harr'⟩ := harr
              rw [ht, hu, hc2, hev] at happ
              simp only [applyEvent] at happ
              rw [if_neg (by simp [initState])] at happ
              have hs1 : s1 = enqueue_message { initState with now := g0.1 } u c g0.2 :=
                (Option.some.inj happ).symm
              have hS : AccumShape u c [] g0 s1 := by
                rw [hs1]; exact arrive_base u c g0
              obtain ⟨tf, hbound, hlog, hfmem, hreg⟩ :=
                run_from_accum u c tr' [] g0 rest s1 sFin hS
                  (by simpa using hlen) hgap (by simpa [arriveEvts] using harr') hrun hq
              refine ⟨tf, hbound, by simpa using hlog, ?_, hreg⟩
              apply List.mem_cons_of_mem
              simpa using hfmem
          | fire t j =>
              rw [fire_none_of_all_dead initState t j (by rfl)] at happ
              exact absurd happ (by simp)
          | complete t j =>
              rw [complete_none_of_no_pending initState t j rfl] at happ
              exact absurd happ (by simp)

/-- **C4 (amended).** For a sequence of `N < MAX_BATCH_SIZE` messages
enqueued to one key with inter-arrival gaps strictly below the debounce
window, every complete (quiescent) schedule performs exactly one flush: it
contains all `N` messages in arrival order, the callback cannot run before
one debounce window after the *last* message (each arrival cancels the
pending timer and starts a new one — a sliding window), and the batch is
removed afterwards.  For `N ≥ MAX_BATCH_SIZE` the claim fails: see the
counterexample. -/
theorem debounce_sliding_window (u c : String) (g0 : Nat × SlackEvt)
    (rest : List (Nat × SlackEvt)) (tr : List QEvent) (sFin : SysState)
    (hlen : 1 + rest.length < MAX_BATCH_SIZE)
    (hgap : slidingOk g0.1 (rest.map Prod.fst) = true)
    (harr : arrivalsOf tr = arriveEvts u c (g0 :: rest))
    (hrun : runTrace initState tr = some sFin)
    (hq : quiescent sFin = true) :
    ∃ tf, (rest.map Prod.fst).getLastD g0.1 + BATCH_TIMEOUT_MS ≤ tf ∧
      sFin.flushLog = [⟨0, (g0 :: rest).map mkQueuedMsg, u, c, tf⟩] ∧
      QEvent.fire tf rest.length ∈ tr ∧
      ∀ k', sFin.registry k' = none :=
  run_from_init u c tr g0 rest sFin hlen hgap harr hrun hq

/-- Eleven messages to one key at 1000 ms intervals (every gap strictly
below the 2000 ms window), with the flush callbacks completing promptly and
the surviving timer firing at its deadline. -/
def elevenMsgTrace : List QEvent :=
  [.arrive 0 "U1" "C1" ⟨"m1", "1", none⟩,
   .arrive 1000 "U1" "C1" ⟨"m2", "2", none⟩,
   .arrive 2000 "U1" "C1" ⟨"m3", "3", none⟩,
   .arrive 3000 "U1" "C1" ⟨"m4", "4", none⟩,
   .arrive 4000 "U1" "C1" ⟨"m5", "5", none⟩,
   .arrive 5000 "U1" "C1" ⟨"m6", "6", none⟩,
   .arrive 6000 "U1" "C1" ⟨"m7", "7", none⟩,
   .arrive 7000 "U1" "C1" ⟨"m8", "8", none⟩,
   .arrive 8000 "U1" "C1" ⟨"m9", "9", none⟩,
   .arrive 9000 "U1" "C1" ⟨"m10", "10", none⟩,
   .complete 9500 0,
   .arrive 10000 "U1" "C1" ⟨"m11", "11", none⟩,
   .fire 12000 9,
   .complete 12000 0]

/-- **C4 counterexample.** Eleven messages with sub-window gaps do *not*
yield exactly one flush: the size cap splits them into a 10-message flush —
fired at the tenth arrival itself (time 9000), not one debounce window
after the last message — and a second single-message flush at 12000. -/
theorem debounce_claim_counterexample :
    (runTrace initState elevenMsgTrace).map (fun s =>
        (s.flushLog.map (fun r => (r.fmessages.map QueuedMessage.text, r.ftime)),
         quiescent s))
      = some ([(["m1", "m2", "m3", "m4", "m5", "m6", "m7", "m8", "m9", "m10"], 9000),
               (["m11"], 12000)], true) := by
  rfl

/-- A prompt two-message schedule used as the C4 witness. -/
def twoMsgTrace : List QEvent :=
  [.arrive 0 "U1" "C1" ⟨"a", "1", none⟩,
   .arrive 1000 "U1" "C1" ⟨"b", "2", none⟩,
   .fire 3000 1,
   .complete 3000 0]

/-- Witness for C4 (amended): the concrete two-message schedule satisfies
every hypothesis, and the theorem yields its single flush. -/
theorem debounce_sliding_window_witness :
    ∃ tf, (([(1000, ⟨"b", "2", none⟩)] : List (Nat × SlackEvt)).map Prod.fst).getLastD 0
        + BATCH_TIMEOUT_MS ≤ tf ∧
      ((runTrace initState twoMsgTrace).getD initState).flushLog
        = [⟨0, ((0, ⟨"a", "1", none⟩) :: [(1000, ⟨"b", "2", none⟩)]).map mkQueuedMsg,
            "U1", "C1", tf⟩] ∧
      QEvent.fire tf ([(1000, (⟨"b", "2", none⟩ : SlackEvt))] : List (Nat × SlackEvt)).length
          ∈ twoMsgTrace ∧
      ∀ k', ((runTrace initState twoMsgTrace).getD initState).registry k' = none :=
  debounce_sliding_window "U1" "C1" (0, ⟨"a", "1", none⟩) [(1000, ⟨"b", "2", none⟩)]
    twoMsgTrace ((runTrace initState twoMsgTrace).getD initState)
    (by decide) (by decide) (by decide) (by rfl) (by rfl)

/-! ## Slack intake workflow (`app/workflows/slack_intake.py`)

The LangGraph pipeline is embedded as a function over the workflow state.
External collaborators (the classifier agent, the Supabase insert, entity
creation, the orchestrator agent) are oracles that fix the outcome of each
external call, and a call log records which of them a run performed. -/

/-- The inner `event` dict of a Slack webhook payload, restricted to the
fields the workflow reads. -/
structure SlackEventData where
  text : String := ""
  user : String := ""
  channel : String := ""
  ts : String := ""
  bot_id : Option String := none
deriving DecidableEq, Repr

/-- The classification result dict carried in the workflow state. -/
structure ClassDict where
  message_type : String
  explanations : List String := []
deriving DecidableEq, Repr

/-- The `agent_result` dict. -/
structure AgentResult where
  status : String
  message : String := ""
deriving DecidableEq, Repr

/-- The `entity_result` dict. -/
structure EntityResult where
  status : String
  reason : Option String := none
deriving DecidableEq, Repr

/-- `SlackWorkflowState`: the LangGraph state TypedDict.  `messages` keeps
the message contents; `slack_event` is `none` when the payload is missing. -/
structure WfState where
  messages : List String := []
  slack_event : Option SlackEventData := none
  classification : Option ClassDict := none
  entity_result : Option EntityResult := none
  agent_result : Option AgentResult := none
  response : Option String := none
  error : Option String := none
  slack_message_id : Option String := none
deriving DecidableEq, Repr

/-- Outcomes of the workflow's external calls.  `Except.error` is the call
raising; for the insert, `ok none` is a result with no data rows. -/
structure WfOracles where
  classifierAvailable : Bool := true
  classifyResult : Except String ClassDict
  storageInsert : Except String (Option String)
  entityCreation : Except String EntityResult
  orchestratorAvailable : Bool := true
  orchestratorResult : Except String AgentResult

/-- The external calls a pipeline run can perform. -/
inductive WfCall where
  | classifierCall
  | storageInsertCall
  | entityCreationCall
  | orchestratorCall
deriving DecidableEq, Repr

/-- `validate_slack_event`: reject a missing payload, a bot message
(`bot_id` set), or missing text/user/channel; otherwise record the message. -/
def validate_slack_event (state : WfState) : WfState :=
  match state.slack_event with
  | none => { state with error := some "No Slack event provided" }
  | some ev =>
      if ev.bot_id.isSome then
        { state with error := some "Bot message - skipping" }
      else if ev.text = "" ∨ ev.user = "" ∨ ev.channel = "" then
        { state with error := some "Missing required fields in Slack event" }
      else
        { state with messages := [ev.text] }

/-- `classify_message` node: calls the classifier, storing the result or an
error string when the call raises or the agent is unavailable. -/
def classify_message_node (o : WfOracles) (state : WfState) : WfState × List WfCall :=
  if o.classifierAvailable = false then
    ({ state with error := some "Classifier agent not available" }, [])
  else
    match o.classifyResult with
    | Except.ok d => ({ state with classification := some d }, [WfCall.classifierCall])
    | Except.error e =>
        ({ state with error := some ("Classification failed: " ++ e) },
         [WfCall.classifierCall])

/-- `store_in_database`: inserts the record; on success with data it stores
the new row id; a raised exception is logged and the state returned
unchanged ("Continue processing even if storage fails"). -/
def store_in_database (o : WfOracles) (state : WfState) : WfState × List WfCall :=
  match o.storageInsert with
  | Except.error _ => (state, [WfCall.storageInsertCall])
  | Except.ok none => (state, [WfCall.storageInsertCall])
  | Except.ok (some message_id) =>
      ({ state with slack_message_id := some message_id }, [WfCall.storageInsertCall])

/-- `create_entities_node`: skips (warning only) unless both a
classification and a stored message id are present; otherwise calls
`create_entities_from_classification`, converting a raised exception into an
error entity result. -/
def create_entities_node (o : WfOracles) (state : WfState) : WfState × List WfCall :=
  match state.classification, state.slack_message_id with
  | some _, some _ =>
      (match o.entityCreation with
       | Except.ok r => ({ state with entity_result := some r }, [WfCall.entityCreationCall])
       | Except.error e =>
           ({ state with entity_result := some ⟨"error", some e⟩ },
            [WfCall.entityCreationCall]))
  | _, _ => (state, [])

/-- `route_to_agent`: IGNORE short-circuits; otherwise the orchestrator is
invoked when available (exceptions become the state's `error`), else a
pending result is recorded. -/
def route_to_agent (o : WfOracles) (state : WfState) : WfState × List WfCall :=
  let message_type : Option String :=
    match state.classification with
    | some d => some d.message_type
    | none => none
  if message_type = some "IGNORE" then
    ({ state with agent_result := some ⟨"ignored", "Message ignored per classification"⟩ },
     [])
  else if o.orchestratorAvailable then
    match o.orchestratorResult with
    | Except.ok r => ({ state with agent_result := some r }, [WfCall.orchestratorCall])
    | Except.error e =>
        ({ state with error := some ("Agent routing failed: " ++ e) },
         [WfCall.orchestratorCall])
  else
    ({ state with agent_result := some ⟨"pending", "Agent processing not yet available"⟩ },
     [])

/-- `prepare_response` (emoji prefixes of the source's f-strings omitted). -/
def prepare_response (state : WfState) : WfState :=
  let message_type : String :=
    match state.classification with
    | some d => d.message_type
    | none => "UNKNOWN"
  let status : String :=
    match state.agent_result with
    | some a => a.status
    | none => "processed"
  let response : Option String :=
    if message_type = "IGNORE" then none
    else if message_type = "INFO_REQUEST" then
      some ("Additional information needed: " ++
        String.intercalate ", "
          (match state.classification with
           | some d => d.explanations
           | none => []))
    else if status = "success" then
      some (match state.agent_result with
            | some a => a.message
            | none => "Processed successfully")
    else if status = "pending" then
      some (match state.agent_result with
            | some a => a.message
            | none => "Task queued for processing")
    else
      some ("Message received and classified as: " ++ message_type)
  { state with response := response }

/-- `handle_error`: log internally, respond with nothing. -/
def handle_error (state : WfState) : WfState :=
  { state with response := none }

/-- `build_slack_workflow` wiring: validate, then on error go to the error
node and end; otherwise classify → store → create_entities → route →
respond, each edge unconditional. -/
def slack_workflow_run (o : WfOracles) (payload : Option SlackEventData) :
    WfState × List WfCall :=
  let s0 : WfState := { slack_event := payload, messages := [] }
  let s1 := validate_slack_event s0
  if s1.error.isSome then (handle_error s1, [])
  else
    let (s2, l2) := classify_message_node o s1
    let (s3, l3) := store_in_database o s2
    let (s4, l4) := create_entities_node o s3
    let (s5, l5) := route_to_agent o s4
    let s6 := prepare_response s5
    (s6, l2 ++ l3 ++ l4 ++ l5)

/-- The dict returned by `process_slack_message`. -/
structure ProcessResult where
  success : Bool
  response : Option String
  error : Option String
deriving DecidableEq, Repr

/-- `process_slack_message`: runs the workflow; `success` is the absence of
an `error` in the final state. -/
def process_slack_message (o : WfOracles) (payload : Option SlackEventData) :
    ProcessResult × List WfCall :=
  let (st, calls) := slack_workflow_run o payload
  ({ success := st.error.isNone, response := st.response, error := st.error }, calls)

/-- Oracles for the storage-failure scenario: classification succeeds, the
database insert raises, downstream collaborators would succeed. -/
def storageFailOracles : WfOracles :=
  { classifyResult := Except.ok ⟨"STRAY", []⟩,
    storageInsert := Except.error "db down",
    entityCreation := Except.ok ⟨"success", none⟩,
    orchestratorResult := Except.ok ⟨"success", "ok"⟩ }

/-- A well-formed non-bot Slack payload. -/
def sampleEventData : SlackEventData :=
  { text := "need someone to cover the open house", user := "U7", channel := "C7",
    ts := "1.0" }

/-- **C3 counterexample.** When persisting the classified record fails, the
pipeline does *not* return an error status `storage_failed`: the run ends
with no error (`success = true`), the orchestrator routing step still
executes, and no `storage_failed` reason exists anywhere in the state. -/
theorem storage_failure_counterexample :
    (process_slack_message storageFailOracles (some sampleEventData)).1.success = true ∧
    (process_slack_message storageFailOracles (some sampleEventData)).1.error = none ∧
    WfCall.orchestratorCall ∈ (process_slack_message storageFailOracles (some sampleEventData)).2 ∧
    WfCall.entityCreationCall ∉ (process_slack_message storageFailOracles (some sampleEventData)).2 := by
  refine ⟨rfl, rfl, by decide, by decide⟩

/-- **C3 (amended).** If persisting the classified record fails, the
pipeline logs and continues: entity materialization is skipped (no stored
message id), but agent routing still runs and the returned result reports
success with no error — the storage failure is invisible in the outcome. -/
theorem storage_failure_continues (o : WfOracles) (ev : SlackEventData)
    (d : ClassDict) (e : String) (ar : AgentResult)
    (hbot : ev.bot_id = none) (htext : ¬ ev.text = "") (huser : ¬ ev.user = "")
    (hchan : ¬ ev.channel = "")
    (havail : o.classifierAvailable = true)
    (hcls : o.classifyResult = Except.ok d)
    (hstore : o.storageInsert = Except.error e)
    (hmt : ¬ d.message_type = "IGNORE")
    (horchav : o.orchestratorAvailable = true)
    (horch : o.orchestratorResult = Except.ok ar) :
    (process_slack_message o (some ev)).1.success = true ∧
    (process_slack_message o (some ev)).1.error = none ∧
    (slack_workflow_run o (some ev)).1.slack_message_id = none ∧
    WfCall.entityCreationCall ∉ (slack_workflow_run o (some ev)).2 ∧
    WfCall.orchestratorCall ∈ (slack_workflow_run o (some ev)).2 := by
  have hrun :
      slack_workflow_run o (some ev) =
        (prepare_response
          { messages := [ev.text]
            slack_event := some ev
            classification := some d
            agent_result := some ar },
         [WfCall.classifierCall, WfCall.storageInsertCall, WfCall.orchestratorCall]) := by
    unfold slack_workflow_run
    simp only [validate_slack_event, hbot, Option.isSome_none, Bool.false_eq_true,
      if_false, htext, huser, hchan, or_self, or_false, if_neg]
    simp only [classify_message_node, havail, hcls, store_in_database, hstore,
      create_entities_node, route_to_agent, horchav, horch]
    simp [hmt]
  refine ⟨?_, ?_, ?_, ?_, ?_⟩ <;>
    simp [process_slack_message, hrun, prepare_response]

/-! ## Witness instances -/

/-- The queue state after one message for key `"U1:C1"`. -/
def oneMsgState : SysState :=
  enqueue_message { initState with now := 0 } "U1" "C1" ⟨"hi", "1", none⟩

/-- Witness for C1: a concrete one-message batch flushed twice logs the
callback exactly once, and the second trigger is a no-op. -/
theorem flush_twice_idempotent_witness :
    (processQueueBegin oneMsgState "U1:C1").flushLog
        = oneMsgState.flushLog ++ [⟨0, [⟨"hi", 0, "1", none⟩], "U1", "C1", oneMsgState.now⟩] ∧
    ∃ s2, processQueueCleanup (processQueueBegin oneMsgState "U1:C1")
        oneMsgState.pending.length = some s2 ∧
      s2.registry "U1:C1" = none ∧
      s2.flushLog
        = oneMsgState.flushLog ++ [⟨0, [⟨"hi", 0, "1", none⟩], "U1", "C1", oneMsgState.now⟩] ∧
      processQueueBegin s2 "U1:C1" = s2 :=
  flush_twice_idempotent oneMsgState "U1:C1"
    ⟨0, "U1:C1", [⟨"hi", 0, "1", none⟩], some 0, "accumulating", "U1", "C1"⟩ (by rfl)

/-- The queue state after nine messages for key `"U1:C1"`. -/
def nineMsgState : SysState :=
  (runTrace initState
    [.arrive 0 "U1" "C1" ⟨"m1", "1", none⟩,
     .arrive 1 "U1" "C1" ⟨"m2", "2", none⟩,
     .arrive 2 "U1" "C1" ⟨"m3", "3", none⟩,
     .arrive 3 "U1" "C1" ⟨"m4", "4", none⟩,
     .arrive 4 "U1" "C1" ⟨"m5", "5", none⟩,
     .arrive 5 "U1" "C1" ⟨"m6", "6", none⟩,
     .arrive 6 "U1" "C1" ⟨"m7", "7", none⟩,
     .arrive 7 "U1" "C1" ⟨"m8", "8", none⟩,
     .arrive 8 "U1" "C1" ⟨"m9", "9", none⟩]).getD initState

/-- The nine accumulated messages of `nineMsgState`. -/
def nineMsgs : List QueuedMessage :=
  [⟨"m1", 0, "1", none⟩, ⟨"m2", 1, "2", none⟩, ⟨"m3", 2, "3", none⟩,
   ⟨"m4", 3, "4", none⟩, ⟨"m5", 4, "5", none⟩, ⟨"m6", 5, "6", none⟩,
   ⟨"m7", 6, "7", none⟩, ⟨"m8", 7, "8", none⟩, ⟨"m9", 8, "9", none⟩]

/-- Witness for C5: the tenth message for a nine-message batch flushes
immediately at its own arrival time with no new timer. -/
theorem size_cap_immediate_flush_witness :
    (enqueue_message { nineMsgState with now := 100 } "U1" "C1" ⟨"m10", "10", none⟩).flushLog
        = nineMsgState.flushLog
          ++ [⟨0, nineMsgs ++ [⟨"m10", 100, "10", none⟩], "U1", "C1", 100⟩] ∧
    (enqueue_message { nineMsgState with now := 100 } "U1" "C1" ⟨"m10", "10", none⟩).timers.length
        = nineMsgState.timers.length ∧
    (enqueue_message { nineMsgState with now := 100 } "U1" "C1" ⟨"m10", "10", none⟩).registry
        (_make_queue_key "U1" "C1")
        = some { (⟨0, "U1:C1", nineMsgs, some 8, "accumulating", "U1", "C1"⟩ : MessageQueue) with
                 messages := nineMsgs ++ [⟨"m10", 100, "10", none⟩], status := "processing" } ∧
    (enqueue_message { nineMsgState with now := 100 } "U1" "C1" ⟨"m10", "10", none⟩).pending
        = nineMsgState.pending
          ++ [⟨0, _make_queue_key "U1" "C1", nineMsgs ++ [⟨"m10", 100, "10", none⟩],
               "U1", "C1"⟩] :=
  size_cap_immediate_flush nineMsgState "U1" "C1" ⟨"m10", "10", none⟩
    ⟨0, "U1:C1", nineMsgs, some 8, "accumulating", "U1", "C1"⟩ 100
    (by rfl) rfl (by rfl)

/-- A valid INFO_REQUEST classification (no keys). -/
def infoReqClassification : ClassificationV1 :=
  { message_type := .INFO_REQUEST, listing := {}, confidence := 1 }

/-- Witness for C6: the concrete keyless INFO_REQUEST classification passes
`validate_keys`, hence satisfies the invariant. -/
theorem classification_key_exclusivity_witness :
    keyExclusivityInvariant infoReqClassification :=
  ((classification_key_exclusivity infoReqClassification).1).mp rfl

/-- Three queued messages for the C7 witness. -/
def threeMsgs : List QueuedMessage :=
  [⟨"New listing", 0, "1111.1", none⟩,
   ⟨"at 123 Main St", 1, "1111.2", none⟩,
   ⟨"500k asking", 2, "1111.3", none⟩]

/-- Witness for C7: a three-message batch renders as the preamble plus the
numbered lines. -/
theorem batching_text_composition_witness :
    batch_messages_for_classification threeMsgs = BATCH_PREAMBLE ++ specCompositeBody threeMsgs :=
  (batching_text_composition threeMsgs (by decide)).2 (by decide)

/-- Witness for C10: the keyless INFO_REQUEST classification produces a
task routed with `is_info_request = true`, stored with `task_key`
`"GENERAL_ADMIN"` and status `"NEEDS_INFO"`. -/
theorem agent_task_defaults_witness :
    entity_dispatch infoReqClassification.message_type = .createAgentTask true ∧
    (build_agent_task_data infoReqClassification none "txt" true "uuid-1" "now-1").task_key
        = "GENERAL_ADMIN" ∧
    (build_agent_task_data infoReqClassification none "txt" true "uuid-1" "now-1").status
        = "NEEDS_INFO" :=
  (agent_task_defaults infoReqClassification none "txt" "uuid-1" "now-1" true).2.2.2.2
    rfl rfl

/-- Witness for C3 (amended): the concrete storage-failure run reports
success, skips entity creation, and still routes to the orchestrator. -/
theorem storage_failure_continues_witness :
    (process_slack_message storageFailOracles (some sampleEventData)).1.success = true ∧
    (process_slack_message storageFailOracles (some sampleEventData)).1.error = none ∧
    (slack_workflow_run storageFailOracles (some sampleEventData)).1.slack_message_id = none ∧
    WfCall.entityCreationCall ∉ (slack_workflow_run storageFailOracles (some sampleEventData)).2 ∧
    WfCall.orchestratorCall ∈ (slack_workflow_run storageFailOracles (some sampleEventData)).2 :=
  storage_failure_continues storageFailOracles sampleEventData ⟨"STRAY", []⟩ "db down"
    ⟨"success", "ok"⟩ rfl (by decide) (by decide) (by decide) rfl rfl rfl (by decide) rfl rfl

end OpsCenter
